import Mathlib

/-
  Verification development for the video-viewerPi repository.

  The repository builds GStreamer pipeline descriptions from input/output
  URIs, selects encoders by platform, and runs a capture loop that stores
  the most recent frame in a single slot.

  Shallow embedding conventions:
  * Python strings are embedded as `Str := List Char`; Lean `String`
    literals are converted with `.toList`.
  * Python exceptions are embedded as `Except PyErr` (or an `Option PyErr`
    paired with the unchanged state, for stateful code). Exception message
    text is not modelled, only the exception class (`ValueError` /
    `KeyError`): `PyErr.valueError` stands for the spec's `InvalidUri` /
    `UnsupportedCodec`, both raised as `ValueError` in the source.
  * `os.path.isfile` is an environment parameter `fs : Str → Bool`.
  * Python `int(s)` is embedded as `pyInt` (optional sign followed by
    digits; the exotic `int` inputs with whitespace or underscores are not
    modelled, no claim depends on them).
  * `re.match` anchors at the start of the string only, so the regex
    embeddings (`rtpMatchOf`, `mcMatchOf`, `rtpOutMatch`) accept trailing
    text after the matched prefix, exactly as the source does.

  Primary source: videoViewerPi2.py (class VideoViewerPi).  The legacy
  script video-viewerPi.py is embedded in namespace `V1` where a claim is
  about it.
-/

namespace VideoViewer

abbrev Str := List Char

/-- Python exception classes that the embedded code can raise. -/
inductive PyErr where
  | valueError
  | keyError (key : String)
deriving DecidableEq, Repr

-- ============================================================
-- Generic string helpers (embeddings of the Python primitives)
-- ============================================================

/-- `u.startswith(p)` on character lists. -/
def startsL : Str → Str → Bool
  | [], _ => true
  | _ :: _, [] => false
  | a :: p, b :: s => a == b && startsL p s

/-- `s.rsplit(":", 1)`: split at the last colon.  `none` when `s` has no
colon (the Python code tests `":" in s` before calling `rsplit`). -/
def rsplitColon : Str → Option (Str × Str)
  | [] => none
  | c :: t =>
    match rsplitColon t with
    | some (a, b) => some (c :: a, b)
    | none => if c = ':' then some ([], t) else none

/-- `s.split(sep)` for a one-character separator. -/
def splitOnChar (sep : Char) : Str → List Str
  | [] => [[]]
  | c :: t =>
    match splitOnChar sep t with
    | h :: r => if c = sep then [] :: h :: r else (c :: h) :: r
    | [] => if c = sep then [[], []] else [[c]]

/-- Decimal value of a digit string. -/
def digitsToNat (s : Str) : Nat :=
  s.foldl (fun n c => n * 10 + (c.toNat - 48)) 0

/-- Nonempty all-digit string. -/
def digitsNE (s : Str) : Bool := !s.isEmpty && s.all Char.isDigit

/-- Embedding of Python `int(s)` for ValueError purposes: an optional
sign followed by at least one digit; anything else raises `ValueError`. -/
def pyInt (s : Str) : Except PyErr Int :=
  match s with
  | [] => .error .valueError
  | c :: t =>
    if c = '-' then
      if digitsNE t then .ok (-(digitsToNat t : Int)) else .error .valueError
    else if c = '+' then
      if digitsNE t then .ok ((digitsToNat t : Int)) else .error .valueError
    else if digitsNE (c :: t) then .ok ((digitsToNat (c :: t) : Int))
    else .error .valueError

/-- Character class `[\d\.]` of the rtp/mc host regexes. -/
def ddChar (c : Char) : Bool := c.isDigit || c == '.'

/-- Leading digit run of `t` as a number (the unanchored `(\d+)` group):
`none` when `t` does not start with a digit. -/
def leadingNat (t : Str) : Option Nat :=
  let ds := t.takeWhile Char.isDigit
  if ds.isEmpty then none else some (digitsToNat ds)

/-- Does `s` start with the two characters `@:`? (the `@` alternative of
the rtp input regex). -/
def atAtColon (s : Str) : Bool :=
  match s with
  | a :: b :: _ => a == '@' && b == ':'
  | _ => false

/-- Unanchored match of `([\d\.]+):(\d+)` at the start of `rest`:
the maximal digit-dot run, a colon, then a leading digit run; trailing
text is ignored (Python `re.match` has no end anchor). -/
def ddHostPort (rest : Str) : Option (Str × Nat) :=
  let run := rest.takeWhile ddChar
  if run.isEmpty then none
  else
    match rest.dropWhile ddChar with
    | ':' :: t => (leadingNat t).map fun n => (run, n)
    | _ => none

/-- `host or None` on the part before the last colon. -/
def hostOpt (h : Str) : Option Str := if h.isEmpty then none else some h

-- ============================================================
-- URI prefixes (literal constants of the source)
-- ============================================================

def devP : Str := "/dev/video".toList
def csiP : Str := "csi://".toList
def udpP : Str := "udp://".toList
def rtpP : Str := "rtp://".toList
def mcP : Str := "mc://".toList
def rtspP : Str := "rtsp://".toList
def saveP : Str := "save://".toList

/-- `u.split("csi://")[1]` where `u` starts with `csi://`: the text after
the prefix, truncated at the next occurrence of `csi://`. -/
def takeUntilCsi : Str → Str
  | [] => []
  | c :: t => if startsL csiP (c :: t) then [] else c :: takeUntilCsi t

-- ============================================================
-- Typed specs (the source's `{"type": ..., ...}` dictionaries)
-- ============================================================

/-- Input spec dictionaries returned by `parse_input`. -/
inductive InputSpec where
  | v4l2 (device : Str)
  | csi (index : Str)
  | udp (host : Option Str) (port : Int)
  | rtp (port : Nat)
  | multicast (host : Str) (port : Nat)
  | rtsp (uri : Str)
  | file (path : Str)
deriving DecidableEq, Repr

/-- Output spec dictionaries returned by `parse_output`. -/
inductive OutputSpec where
  | localOut
  | rtp (host : Str) (port : Nat)
  | multicast (host : Str) (port : Nat)
  | save (file : Str)
  | http
  | appsink
deriving DecidableEq, Repr

-- ============================================================
-- parse_resolution  (videoViewerPi2.py lines 73-78; identical in
-- video-viewerPi.py lines 39-54)
-- ============================================================

def parse_resolution (r : Str) : Str :=
  if r.isEmpty then []
  else if r.contains 'x' then r
  else if r = "1080".toList then "1920x1080".toList
  else if r = "720".toList then "1280x720".toList
  else if r = "480".toList then "640x480".toList
  else []

-- ============================================================
-- get_encoder  (videoViewerPi2.py lines 150-161; same decision table as
-- video-viewerPi.py get_encoder(c, p, hw) lines 117-138)
-- ============================================================

def jpegencStr : String := "jpegenc"
def nvh264Str : String := "nvh264enc insert-sps-pps=true"
def v4l2h264Str : String := "v4l2h264enc"
def x264Str : String := "x264enc tune=zerolatency byte-stream=true key-int-max=30"

def get_encoder (platform : String) (hw_encoder : Bool) (codec : String) :
    Except PyErr String :=
  if codec = "mjpeg" then .ok jpegencStr
  else if codec = "h264" then
    .ok (if hw_encoder then
           if platform = "jetson" then nvh264Str
           else if platform = "rpi" then v4l2h264Str
           else x264Str
         else x264Str)
  else .error .valueError

-- ============================================================
-- parse_input  (videoViewerPi2.py lines 84-118)
-- ============================================================

/-- `re.match(r"rtp://(?:[\d\.]+|@):(\d+)", u)`: either `@` or a nonempty
digit-dot run, a colon, then the leading digit run as the port.  The
regex is unanchored at the end, so trailing text is accepted. -/
def rtpMatchOf (u : Str) : Option Nat :=
  let rest := u.drop 6
  if atAtColon rest then leadingNat (rest.drop 2)
  else (ddHostPort rest).map (·.2)

/-- `re.match(r"mc://([\d\.]+):(\d+)", u)` applied after the `mc://`
prefix check; unanchored at the end. -/
def mcMatchOf (u : Str) : Option (Str × Nat) := ddHostPort (u.drop 5)

/-- The trailing `os.path.isfile` check of `parse_input`, shared by the
fall-through paths of the failed rtp/mc regexes. -/
def fileOrFail (fs : Str → Bool) (u : Str) : Except PyErr InputSpec :=
  if fs u then .ok (.file u) else .error .valueError

def parse_input (fs : Str → Bool) (u : Str) : Except PyErr InputSpec :=
  if startsL devP u then .ok (.v4l2 u)
  else if startsL csiP u then .ok (.csi (takeUntilCsi (u.drop 6)))
  else if startsL udpP u then
    let s := u.drop 6
    match rsplitColon s with
    | some (h, p) => (pyInt p).map fun n => .udp (hostOpt h) n
    | none => (pyInt s).map fun n => .udp none n
  else if startsL rtpP u then
    match rtpMatchOf u with
    | some port => .ok (.rtp port)
    | none => fileOrFail fs u
  else if startsL mcP u then
    match mcMatchOf u with
    | some (h, p) => .ok (.multicast h p)
    | none => fileOrFail fs u
  else if startsL rtspP u then .ok (.rtsp u)
  else fileOrFail fs u

-- ============================================================
-- parse_output  (videoViewerPi2.py lines 125-143)
-- ============================================================

/-- `re.match(r"rtp://([\d\.]+):(\d+)", u)` applied after the `rtp://`
prefix check; the host group is mandatory here; unanchored at the end. -/
def rtpOutMatch (u : Str) : Option (Str × Nat) := ddHostPort (u.drop 6)

def parse_output (u : Str) : Except PyErr OutputSpec :=
  match (if startsL rtpP u then rtpOutMatch u else none) with
  | some (h, p) => .ok (.rtp h p)
  | none =>
    match (if startsL mcP u then mcMatchOf u else none) with
    | some (h, p) => .ok (.multicast h p)
    | none =>
      if u = "local".toList then .ok .localOut
      else if startsL saveP u then .ok (.save (u.drop 7))
      else if u = "http".toList then .ok .http
      else if u = "appsink".toList then .ok .appsink
      else .error .valueError

-- ============================================================
-- Session configuration (the constructor fields of VideoViewerPi)
-- ============================================================

structure Config where
  input_uri : Str
  output_uri : Str
  input_codec : String := "h264"
  output_codec : String := "h264"
  hw_encoder : Bool := false
  resolution : Str := []
  fps : Str := []
  platform : String := "generic"

-- ============================================================
-- build_pipeline  (videoViewerPi2.py lines 168-234)
-- ============================================================

/-- Decimal digits of a number, for interpolating ports into pipeline
strings. -/
def natStr (n : Nat) : Str := Nat.toDigits 10 n

def dq : Str := ['"']

/-- The optional `, framerate=<fps>/1` suffix of the caps string. -/
def addFps (fps caps : Str) : Str :=
  if fps.isEmpty then caps
  else caps ++ ", framerate=".toList ++ fps ++ "/1".toList

/-- The `caps` string built for v4l2/csi inputs; raises `ValueError` when
`self.resolution.split("x")` does not unpack into exactly two parts (the
unpack raises before the fps suffix is appended). -/
def v4l2Caps (resolution fps : Str) : Except PyErr Str :=
  let base := "video/x-raw".toList
  if resolution.isEmpty then .ok (addFps fps base)
  else
    match splitOnChar 'x' resolution with
    | [w, h] =>
      .ok (addFps fps (base ++ ", width=".toList ++ w ++ ", height=".toList ++ h))
    | _ => .error .valueError

/-- RTP caps chosen by the input codec. -/
def rtpCapsFor (input_codec : String) : Str :=
  if input_codec = "mjpeg" then
    "application/x-rtp,media=video,encoding-name=JPEG,payload=26".toList
  else
    "application/x-rtp,media=video,encoding-name=H264,payload=96".toList

/-- Depayloader chain chosen by the input codec (videoViewerPi2.py). -/
def depayFor (input_codec : String) : Str :=
  if input_codec = "mjpeg" then "rtpjpegdepay ! jpegdec".toList
  else "rtph264depay ! h264parse ! avdec_h264".toList

/-- The source-stage half of `build_pipeline`. -/
def buildSrc (cfg : Config) (inp : InputSpec) : Except PyErr Str := do
  match inp with
  | .v4l2 dev =>
    let caps ← v4l2Caps cfg.resolution cfg.fps
    pure ("v4l2src device=".toList ++ dev ++ " ! ".toList ++ caps ++
          " ! videoconvert".toList)
  | .csi idx =>
    let caps ← v4l2Caps cfg.resolution cfg.fps
    pure ("v4l2src device=".toList ++ ("/dev/video".toList ++ idx) ++
          " ! ".toList ++ caps ++ " ! videoconvert".toList)
  | .file path =>
    pure ("filesrc location=".toList ++ dq ++ path ++ dq ++
          " ! decodebin ! videoconvert".toList)
  | .rtp port =>
    pure ("udpsrc".toList ++ " port=".toList ++ natStr port ++
          " caps=".toList ++ dq ++ rtpCapsFor cfg.input_codec ++ dq ++
          " ! ".toList ++ depayFor cfg.input_codec ++ " ! videoconvert".toList)
  | .multicast host port =>
    pure ("udpsrc".toList ++ " multicast-group=".toList ++ host ++
          " auto-multicast=true".toList ++ " port=".toList ++ natStr port ++
          " caps=".toList ++ dq ++ rtpCapsFor cfg.input_codec ++ dq ++
          " ! ".toList ++ depayFor cfg.input_codec ++ " ! videoconvert".toList)
  | .udp host port =>
    let base := "udpsrc".toList ++
      (match host with
       | some h => " address=".toList ++ h
       | none => [])
    pure (base ++ " port=".toList ++ intPortStr port ++
          " caps=".toList ++ dq ++ rtpCapsFor cfg.input_codec ++ dq ++
          " ! ".toList ++ depayFor cfg.input_codec ++ " ! videoconvert".toList)
  | .rtsp uri =>
    pure ("rtspsrc location=".toList ++ dq ++ uri ++ dq ++
          " latency=0 protocols=udp name=src ".toList ++
          "! queue ! rtph264depay ! h264parse ! avdec_h264 ! videoconvert".toList)
where
  intPortStr (n : Int) : Str :=
    if n < 0 then '-' :: natStr n.natAbs else natStr n.natAbs

/-- The sink-stage half of `build_pipeline` (videoViewerPi2.py lines
212-232).  Note: both the rtp and the multicast sinks interpolate the
encoder chosen from `output_codec` in front of a fixed `rtph264pay`
payloader. -/
def buildSink (cfg : Config) (outp : OutputSpec) : Except PyErr (Option Str) := do
  match outp with
  | .localOut => pure (some "autovideosink sync=false".toList)
  | .save file =>
    let enc ← get_encoder cfg.platform cfg.hw_encoder cfg.output_codec
    pure (some (enc.toList ++ " ! mp4mux ! filesink location=".toList ++
                dq ++ file ++ dq))
  | .rtp host port =>
    let enc ← get_encoder cfg.platform cfg.hw_encoder cfg.output_codec
    pure (some (enc.toList ++ " ! rtph264pay config-interval=1 pt=96 ! udpsink host=".toList ++
                host ++ " port=".toList ++ natStr port))
  | .multicast host port =>
    let enc ← get_encoder cfg.platform cfg.hw_encoder cfg.output_codec
    pure (some (enc.toList ++ " ! rtph264pay pt=96 ! udpsink host=".toList ++
                host ++ " port=".toList ++ natStr port ++
                " auto-multicast=true ttl=1".toList))
  | .http => pure none
  | .appsink => pure none

def build_pipeline (cfg : Config) (inp : InputSpec) (outp : OutputSpec) :
    Except PyErr (Option Str) := do
  let src ← buildSrc cfg inp
  match (← buildSink cfg outp) with
  | some sink => pure (some (src ++ " ! ".toList ++ sink))
  | none => pure none

-- ============================================================
-- build_appsink_pipeline  (videoViewerPi2.py lines 241-266)
-- ============================================================

/-- The two fixed appsink topologies.  Both hardcode 1280x720; the
session's `resolution`/`fps` fields are not consulted by the source. -/
def appsinkJetsonStr (dev : Str) : Str :=
  "v4l2src device=".toList ++ dev ++ " ! ".toList ++
  "video/x-raw(memory:NVMM),width=1280,height=720,framerate=30/1 ! ".toList ++
  "nvvidconv ! video/x-raw,format=RGBA ! ".toList ++
  "appsink name=appsink max-buffers=1 drop=true emit-signals=true sync=false".toList

def appsinkBgrStr (dev : Str) : Str :=
  "v4l2src device=".toList ++ dev ++ " ! ".toList ++
  "video/x-raw,width=1280,height=720,framerate=30/1 ! ".toList ++
  "videoconvert ! video/x-raw,format=BGR ! ".toList ++
  "appsink name=appsink max-buffers=1 drop=true emit-signals=true sync=false".toList

def build_appsink_pipeline (platform : String) (inp : InputSpec) :
    Except PyErr Str :=
  match inp with
  | .v4l2 dev =>
    if platform = "jetson" then .ok (appsinkJetsonStr dev)
    else .ok (appsinkBgrStr dev)
  | .csi idx =>
    let dev := "/dev/video".toList ++ idx
    if platform = "jetson" then .ok (appsinkJetsonStr dev)
    else .ok (appsinkBgrStr dev)
  | _ => .error .valueError

-- ============================================================
-- build_http_pipeline  (videoViewerPi2.py lines 348-424)
-- ============================================================

def httpRtpCaps : Str :=
  "caps=".toList ++ dq ++
  "application/x-rtp,media=video,encoding-name=H264,payload=96".toList ++ dq

def httpTail : Str :=
  "! jpegenc idct-method=1 ".toList ++
  "! appsink name=appsink emit-signals=true max-buffers=1 drop=true sync=false".toList

def build_http_pipeline (inp : InputSpec) : Except PyErr Str := do
  let src ←
    match inp with
    | .v4l2 dev =>
      pure ("v4l2src device=".toList ++ dev ++ " ! ".toList ++
            "video/x-raw,width=640,height=480,framerate=30/1 ! videoconvert ".toList)
    | .csi idx =>
      pure ("v4l2src device=/dev/video".toList ++ idx ++ " ! ".toList ++
            "video/x-raw,width=640,height=480 ! videoconvert ".toList)
    | .file path =>
      pure ("filesrc location=".toList ++ dq ++ path ++ dq ++
            " ! decodebin ! videoconvert ".toList)
    | .rtp port =>
      pure ("udpsrc port=".toList ++ natStr port ++ " ".toList ++ httpRtpCaps ++
            " ! rtph264depay ! h264parse ! avdec_h264 ! videoconvert ".toList)
    | .multicast host port =>
      pure ("udpsrc multicast-group=".toList ++ host ++
            " auto-multicast=true port=".toList ++ natStr port ++ " ".toList ++
            httpRtpCaps ++
            " ! rtph264depay ! h264parse ! avdec_h264 ! videoconvert ".toList)
    | .udp _ port =>
      pure ("udpsrc port=".toList ++ buildSrc.intPortStr port ++ " ! ".toList ++
            "application/x-rtp,media=video,encoding-name=H264,payload=96 ! ".toList ++
            "rtph264depay ! h264parse ! avdec_h264 ! videoconvert ".toList)
    | .rtsp uri =>
      pure ("rtspsrc location=".toList ++ dq ++ uri ++ dq ++
            " latency=0 protocols=udp name=src ".toList ++
            "! queue ! rtph264depay ! h264parse ! avdec_h264 ! videoconvert ".toList)
  pure (src ++ httpTail)

-- ============================================================
-- Frame capture bridge  (videoViewerPi2.py lines 291-334)
-- ============================================================

/-- A numpy array: shape metadata plus the flat byte buffer (an owned
copy; `arr.copy()` in the source). -/
structure NdArray where
  dims : List Nat
  data : List Nat
deriving DecidableEq, Repr

/-- The frame-buffer slots and the cooperative flag of the session that
the capture thread touches. -/
structure CapState where
  frame : Option NdArray := none
  cuda_frame : Option NdArray := none
  running : Bool := false
deriving DecidableEq, Repr

/-- `get_frame` (line 333-334): non-blocking read of the slot. -/
def get_frame (st : CapState) : Option NdArray := st.frame

/-- `get_cuda_frame` (line 340-341). -/
def get_cuda_frame (st : CapState) : Option NdArray := st.cuda_frame

/-- One observable event of a capture-loop iteration:
* `noSample`  — `pull-sample` returned nothing (sleep and retry);
* `noBuffer`  — the sample carried no buffer (skip);
* `mapFail`   — `buffer.map` returned not-ok (skip);
* `exn`       — an exception was raised before any slot write and caught
                by the `except` clause (log and retry);
* `sample d`  — a sample was pulled and mapped to the bytes `d`;
* `stop`      — the session's owner cleared the `running` flag (the flag
                is written outside the loop; the loop only reads it). -/
inductive CapEvent where
  | noSample
  | noBuffer
  | mapFail
  | exn
  | sample (d : List Nat)
  | stop
deriving DecidableEq, Repr

/-- `np.frombuffer(data, dtype=np.uint8).reshape((720, 1280, 3))`:
metadata-only reshape, raising (hence: handled by the `except` clause,
slot unchanged) unless the byte count matches. -/
def reshapeBGR (d : List Nat) : Option NdArray :=
  if d.length = 720 * 1280 * 3 then some ⟨[720, 1280, 3], d⟩ else none

/-- The body of one `while self.running` iteration (lines 293-327). -/
def stepCap (platform : String) (st : CapState) (ev : CapEvent) : CapState :=
  match ev with
  | .stop => { st with running := false }
  | .noSample | .noBuffer | .mapFail | .exn => st
  | .sample d =>
    if platform = "jetson" then
      { st with frame := some ⟨[d.length], d⟩, cuda_frame := some ⟨[d.length], d⟩ }
    else
      match reshapeBGR d with
      | some arr => { st with frame := some arr }
      | none => st

/-- The capture loop over a finite event trace: before each iteration the
`running` flag is read; the Bool result records whether the loop exited
through that check before exhausting the trace. -/
def capLoop (platform : String) : List CapEvent → CapState → CapState × Bool
  | [], st => (st, false)
  | e :: evs, st =>
    if st.running then capLoop platform evs (stepCap platform st e)
    else (st, true)

/-- A sample the capture body can store: on Jetson any byte array, on
other platforms exactly a 1280x720x3 BGR buffer (the appsink caps
guarantee this size; anything else makes `reshape` raise, which the
`except` clause swallows). -/
def sampleOk (platform : String) (d : List Nat) : Prop :=
  platform = "jetson" ∨ d.length = 720 * 1280 * 3

/-- The array the capture body stores for a sample: Jetson keeps the raw
1-D byte array, every other platform the (720, 1280, 3) reshape. -/
def mkStored (platform : String) (d : List Nat) : NdArray :=
  if platform = "jetson" then ⟨[d.length], d⟩ else ⟨[720, 1280, 3], d⟩

-- ============================================================
-- Session state and start()  (videoViewerPi2.py lines 36-42, 517-539)
-- ============================================================

/-- The mutable fields of `VideoViewerPi` set in `__init__` (lines 36-42)
and written by `start`/`start_appsink`/`start_http`. -/
structure ViewerState where
  frame : Option NdArray := none
  cuda_frame : Option NdArray := none
  running : Bool := false
  pipeline : Option Str := none
  http_pipeline : Option Str := none
deriving DecidableEq, Repr

/-- The state right after `__init__`. -/
def initState : ViewerState := {}

/-- `start()` (lines 517-539): parse both URIs first; any parse failure
propagates before any other field is touched.  On success, dispatch on
the output type: appsink sets the main pipeline and the running flag,
http sets the http pipeline, anything else launches the composed
pipeline.  The Gst/GLib side effects (parse_launch, bus, main loop) are
outside the model; only the pipeline description and the field writes are
kept. -/
def start (fs : Str → Bool) (cfg : Config) (st : ViewerState) :
    Option PyErr × ViewerState :=
  match parse_input fs cfg.input_uri with
  | .error e => (some e, st)
  | .ok inp =>
    match parse_output cfg.output_uri with
    | .error e => (some e, st)
    | .ok outp =>
      match outp with
      | .appsink =>
        match build_appsink_pipeline cfg.platform inp with
        | .error e => (some e, st)
        | .ok ps => (none, { st with pipeline := some ps, running := true })
      | .http =>
        match build_http_pipeline inp with
        | .error e => (some e, st)
        | .ok ps => (none, { st with http_pipeline := some ps })
      | _ =>
        match build_pipeline cfg inp outp with
        | .error e => (some e, st)
        | .ok (some ps) => (none, { st with pipeline := some ps })
        | .ok none => (none, st)

-- ============================================================
-- Legacy script video-viewerPi.py (namespace V1)
-- ============================================================

namespace V1

/-- Key lookup `inp['device']` on the dictionaries built by the legacy
`parse_input`: only the `v4l2` dictionary carries a `device` key, every
other variant raises `KeyError('device')`. -/
def deviceOf : InputSpec → Except PyErr Str
  | .v4l2 d => .ok d
  | _ => .error (.keyError "device")

/-- Legacy depayloader chain (video-viewerPi.py line 178: no h264parse). -/
def depayFor (in_c : String) : Str :=
  if in_c = "mjpeg" then "rtpjpegdepay ! jpegdec".toList
  else "rtph264depay ! avdec_h264".toList

/-- The source-stage half of the legacy `build_pipeline` (lines 159-186).
There is no rtsp input branch: the legacy depayloader chain (line 178)
omits `h264parse`, and an rtsp input falls into the "Unknown input type"
`ValueError` (it is unreachable from the legacy `parse_input`). -/
def srcFor (inp : InputSpec) (in_c : String) (res fps : Str) :
    Except PyErr Str :=
  match inp with
  | .v4l2 dev =>
    match v4l2Caps res fps with
    | .error e => .error e
    | .ok caps =>
      .ok ("v4l2src device=".toList ++ dev ++ " ! ".toList ++ caps ++
           " ! videoconvert".toList)
  | .csi idx =>
    match v4l2Caps res fps with
    | .error e => .error e
    | .ok caps =>
      .ok ("v4l2src device=".toList ++ ("/dev/video".toList ++ idx) ++
           " ! ".toList ++ caps ++ " ! videoconvert".toList)
  | .file path =>
    .ok ("filesrc location=".toList ++ path ++
         " ! decodebin ! videoconvert".toList)
  | .rtp port =>
    .ok ("udpsrc".toList ++ " port=".toList ++ natStr port ++
         " caps=".toList ++ dq ++ rtpCapsFor in_c ++ dq ++
         " ! ".toList ++ depayFor in_c ++ " ! videoconvert".toList)
  | .multicast host port =>
    .ok ("udpsrc".toList ++ " multicast-group=".toList ++ host ++
         " auto-multicast=true".toList ++ " port=".toList ++ natStr port ++
         " caps=".toList ++ dq ++ rtpCapsFor in_c ++ dq ++
         " ! ".toList ++ depayFor in_c ++ " ! videoconvert".toList)
  | .udp host port =>
    .ok (("udpsrc".toList ++
          (match host with
           | some h => " address=".toList ++ h
           | none => [])) ++ " port=".toList ++ buildSrc.intPortStr port ++
         " caps=".toList ++ dq ++ rtpCapsFor in_c ++ dq ++
         " ! ".toList ++ depayFor in_c ++ " ! videoconvert".toList)
  | .rtsp _ => .error .valueError

/-- The sink string of the legacy encoder-using outputs (lines 202-217):
both rtp and multicast pick the payloader by the output codec here. -/
def sinkFor (outp : OutputSpec) (enc : String) (out_c : String) :
    Except PyErr Str :=
  match outp with
  | .rtp host port =>
    if out_c = "mjpeg" then
      .ok (enc.toList ++ " ! rtpjpegpay pt=26 ! udpsink host=".toList ++
           host ++ " port=".toList ++ natStr port)
    else
      .ok (enc.toList ++
           " ! rtph264pay config-interval=1 pt=96 ! udpsink host=".toList ++
           host ++ " port=".toList ++ natStr port)
  | .multicast host port =>
    if out_c = "mjpeg" then
      .ok (enc.toList ++ " ! rtpjpegpay pt=26 ! udpsink host=".toList ++
           host ++ " port=".toList ++ natStr port ++
           " auto-multicast=true ttl=1".toList)
    else
      .ok (enc.toList ++
           " ! rtph264pay config-interval=1 pt=96 ! udpsink host=".toList ++
           host ++ " port=".toList ++ natStr port ++
           " auto-multicast=true ttl=1".toList)
  | .save file =>
    .ok (enc.toList ++ " ! mp4mux ! filesink location=".toList ++ file)
  | _ => .error .valueError

/-- `build_pipeline` of video-viewerPi.py (lines 140-219).  `plat` stands
for the `detect_platform()` call on line 157.  The http branch (lines
191-201) interpolates `inp['device']` into its fixed topology before
anything else, so a non-v4l2 input raises `KeyError('device')` there; its
`Gst.parse_launch`/Flask side effects are outside the model and the
branch yields `none` as in the source. -/
def build_pipeline (plat : String) (inp : InputSpec) (outp : OutputSpec)
    (in_c out_c : String) (hw : Bool) (res fps : Str) :
    Except PyErr (Option Str) :=
  match srcFor inp in_c res fps with
  | .error e => .error e
  | .ok src =>
    match outp with
    | .localOut =>
      .ok (some (src ++ " ! ".toList ++ "autovideosink sync=false".toList))
    | .http =>
      match deviceOf inp with
      | .error e => .error e
      | .ok _dev => .ok none
    | _ =>
      match get_encoder plat hw out_c with
      | .error e => .error e
      | .ok enc =>
        match sinkFor outp enc out_c with
        | .error e => .error e
        | .ok sink => .ok (some (src ++ " ! ".toList ++ sink))

end V1

-- ============================================================
-- Spec-side input grammar (§4.2)
-- ============================================================

/-- Nonempty all-digit port text (§4.2 writes `<port>` as a number). -/
def exactPort (p : Str) : Bool := digitsNE p

/-- Modelled from the spec (§4.2, form 3): `udp://[host]:<port>` with the
port read after the last colon (the host may be absent). -/
def udpForm (u : Str) : Bool :=
  startsL udpP u &&
  (match rsplitColon (u.drop 6) with
   | some (_, p) => exactPort p
   | none => false)

/-- Exact `<host>:<port>` with a nonempty digit-dot host, consuming the
whole remainder. -/
def ddColonPortExact (rest : Str) : Bool :=
  !(rest.takeWhile ddChar).isEmpty &&
  (match rest.dropWhile ddChar with
   | ':' :: t => exactPort t
   | _ => false)

/-- Modelled from the spec (§4.2, form 4): `rtp://[host|@]:<port>`. -/
def rtpForm (u : Str) : Bool :=
  startsL rtpP u &&
  (let rest := u.drop 6
   if atAtColon rest then exactPort (rest.drop 2) else ddColonPortExact rest)

/-- Modelled from the spec (§4.2, form 5): `mc://<host>:<port>` with a
mandatory address-like host. -/
def mcForm (u : Str) : Bool := startsL mcP u && ddColonPortExact (u.drop 5)

/-- Modelled from the spec: membership in the §4.2 input grammar — one of
the seven forms (device prefix; `csi://<index>` with an opaque index;
`udp://[host]:<port>`; `rtp://[host|@]:<port>`; `mc://<host>:<port>`;
`rtsp://...` opaque; an existing file).  Used to state that a string lies
outside the documented grammar. -/
def grammar42 (fs : Str → Bool) (u : Str) : Bool :=
  startsL devP u || startsL csiP u || udpForm u || rtpForm u || mcForm u ||
  startsL rtspP u || fs u

-- ============================================================
-- The assignment relation actually implemented by parse_input
-- ============================================================

/-- No colon anywhere in the string (negation of Python `":" in s`). -/
def colonFree : Str → Bool
  | [] => true
  | c :: t => if c = ':' then false else colonFree t

def allDD (s : Str) : Bool := s.all ddChar

/-- `true` when the string does not begin with a character satisfying
`q` (a `q`-run match cannot extend into it). -/
def headNot (q : Char → Bool) : Str → Bool
  | [] => true
  | c :: _ => !q c

/-- `true` when the string does not begin with a digit (a digit run match
cannot extend into it). -/
def headNotDigit : Str → Bool := headNot Char.isDigit

/-- The §4.2 input grammar as `parse_input` actually decides it, written
as a decomposition relation.  It differs from the literal grammar in the
ways the counterexample forces: the rtp and mc forms match as prefixes
(trailing text after the port is ignored), the csi index is the text up
to the next occurrence of `csi://`, the udp port is any `int()`-parsable
text (signed, unbounded, no range check), and a `udp://` string with an
unparsable port never falls through to the existing-file form. -/
inductive Assigns (fs : Str → Bool) : Str → InputSpec → Prop where
  | dev (rest : Str) :
      Assigns fs (devP ++ rest) (.v4l2 (devP ++ rest))
  | csi (rest : Str) :
      Assigns fs (csiP ++ rest) (.csi (takeUntilCsi rest))
  | udpColon (h p : Str) (n : Int) (hp : colonFree p = true)
      (hn : pyInt p = .ok n) :
      Assigns fs (udpP ++ h ++ ':' :: p) (.udp (hostOpt h) n)
  | udpPlain (s : Str) (n : Int) (hs : colonFree s = true)
      (hn : pyInt s = .ok n) :
      Assigns fs (udpP ++ s) (.udp none n)
  | rtpAt (p rest : Str) (hp : digitsNE p = true)
      (hr : headNotDigit rest = true) :
      Assigns fs (rtpP ++ '@' :: ':' :: (p ++ rest)) (.rtp (digitsToNat p))
  | rtpHost (h p rest : Str) (hh : ¬h.isEmpty) (hdd : allDD h = true)
      (hp : digitsNE p = true) (hr : headNotDigit rest = true) :
      Assigns fs (rtpP ++ h ++ ':' :: (p ++ rest)) (.rtp (digitsToNat p))
  | mc (h p rest : Str) (hh : ¬h.isEmpty) (hdd : allDD h = true)
      (hp : digitsNE p = true) (hr : headNotDigit rest = true) :
      Assigns fs (mcP ++ h ++ ':' :: (p ++ rest))
        (.multicast h (digitsToNat p))
  | rtsp (rest : Str) :
      Assigns fs (rtspP ++ rest) (.rtsp (rtspP ++ rest))
  | file (u : Str) (h1 : startsL devP u = false)
      (h2 : startsL csiP u = false) (h3 : startsL udpP u = false)
      (h4 : startsL rtspP u = false)
      (h5 : startsL rtpP u = true → rtpMatchOf u = none)
      (h6 : startsL mcP u = true → mcMatchOf u = none)
      (hf : fs u = true) :
      Assigns fs u (.file u)

-- ============================================================
-- Helper lemmas: prefixes, rsplit, runs
-- ============================================================

theorem startsL_self_append (p r : Str) : startsL p (p ++ r) = true := by
  induction p with
  | nil => rfl
  | cons a p ih => simp [startsL, ih]

theorem startsL_eq_true_iff {p u : Str} :
    startsL p u = true ↔ ∃ r, u = p ++ r := by
  induction p generalizing u with
  | nil => simp [startsL]
  | cons a p ih =>
    cases u with
    | nil => simp [startsL]
    | cons b u =>
      simp only [startsL, Bool.and_eq_true, beq_iff_eq, ih, List.cons_append,
        List.cons.injEq]
      constructor
      · rintro ⟨h, r, hr⟩; exact ⟨r, h.symm, hr⟩
      · rintro ⟨r, h, hr⟩; exact ⟨h.symm, r, hr⟩

theorem rsplit_none_of_colonFree : ∀ {s : Str}, colonFree s = true →
    rsplitColon s = none
  | [], _ => rfl
  | c :: t, h => by
    unfold colonFree at h
    by_cases hc : c = ':'
    · simp [hc] at h
    · simp only [if_neg hc] at h
      simp [rsplitColon, rsplit_none_of_colonFree h, hc]

theorem colonFree_of_rsplit_none : ∀ {s : Str}, rsplitColon s = none →
    colonFree s = true
  | [], _ => rfl
  | c :: t, h => by
    unfold rsplitColon at h
    cases ht : rsplitColon t with
    | some pr => rw [ht] at h; cases h
    | none =>
      rw [ht] at h
      by_cases hc : c = ':'
      · simp [hc] at h
      · simp [colonFree, hc, colonFree_of_rsplit_none ht]

theorem rsplit_some_decomp : ∀ {s a b : Str}, rsplitColon s = some (a, b) →
    s = a ++ ':' :: b ∧ colonFree b = true
  | [], a, b, h => by cases h
  | c :: t, a, b, h => by
    unfold rsplitColon at h
    cases ht : rsplitColon t with
    | some pr =>
      obtain ⟨a', b'⟩ := pr
      rw [ht] at h
      simp only [Option.some.injEq, Prod.mk.injEq] at h
      obtain ⟨rfl, rfl⟩ := h
      obtain ⟨h1, h2⟩ := rsplit_some_decomp ht
      exact ⟨by simp [h1], h2⟩

    | none =>
      rw [ht] at h
      by_cases hc : c = ':'
      · simp only [if_pos hc, Option.some.injEq, Prod.mk.injEq] at h
        obtain ⟨rfl, rfl⟩ := h
        exact ⟨by simp [hc], colonFree_of_rsplit_none ht⟩
      · simp [hc] at h

theorem rsplit_append {p : Str} (hp : colonFree p = true) :
    ∀ h : Str, rsplitColon (h ++ ':' :: p) = some (h, p)
  | [] => by simp [rsplitColon, rsplit_none_of_colonFree hp]
  | c :: h => by simp [rsplitColon, rsplit_append hp h]

theorem takeWhile_all_append {q : Char → Bool} :
    ∀ {l r : Str}, l.all q = true → headNot q r = true →
      (l ++ r).takeWhile q = l
  | [], r, _, hr => by
    cases r with
    | nil => rfl
    | cons c t =>
      unfold headNot at hr
      simp only [Bool.not_eq_true'] at hr
      simp [List.takeWhile_cons, hr]
  | a :: l, r, hl, hr => by
    simp only [List.all_cons, Bool.and_eq_true] at hl
    simp [List.takeWhile_cons, hl.1, takeWhile_all_append hl.2 hr]

theorem dropWhile_all_append {q : Char → Bool} :
    ∀ {l r : Str}, l.all q = true → headNot q r = true →
      (l ++ r).dropWhile q = r
  | [], r, _, hr => by
    cases r with
    | nil => rfl
    | cons c t =>
      unfold headNot at hr
      simp only [Bool.not_eq_true'] at hr
      simp [List.dropWhile_cons, hr]
  | a :: l, r, hl, hr => by
    simp only [List.all_cons, Bool.and_eq_true] at hl
    simp [List.dropWhile_cons, hl.1, dropWhile_all_append hl.2 hr]

theorem headNot_dropWhile (q : Char → Bool) :
    ∀ l : Str, headNot q (l.dropWhile q) = true
  | [] => rfl
  | c :: t => by
    by_cases h : q c = true
    · simp [List.dropWhile_cons, h, headNot_dropWhile q t]
    · simp only [Bool.not_eq_true] at h
      simp [List.dropWhile_cons, h, headNot]

theorem all_takeWhile_self (q : Char → Bool) :
    ∀ l : Str, (l.takeWhile q).all q = true
  | [] => rfl
  | c :: t => by
    by_cases h : q c = true
    · simp [List.takeWhile_cons, h, all_takeWhile_self q t]
    · simp only [Bool.not_eq_true] at h
      simp [List.takeWhile_cons, h]

-- ============================================================
-- Helper lemmas: leadingNat, ddHostPort, atAtColon
-- ============================================================

theorem digitsNE_parts {p : Str} (h : digitsNE p = true) :
    p.isEmpty = false ∧ p.all Char.isDigit = true := by
  unfold digitsNE at h
  simp only [Bool.and_eq_true, Bool.not_eq_true'] at h
  exact h

theorem leadingNat_of_append {p rest : Str} (hp : digitsNE p = true)
    (hr : headNotDigit rest = true) :
    leadingNat (p ++ rest) = some (digitsToNat p) := by
  obtain ⟨h1, h2⟩ := digitsNE_parts hp
  unfold leadingNat
  rw [takeWhile_all_append h2 hr]
  simp [h1]

theorem leadingNat_some_decomp {t : Str} {n : Nat}
    (h : leadingNat t = some n) :
    ∃ p rest, t = p ++ rest ∧ digitsNE p = true ∧ headNotDigit rest = true ∧
      n = digitsToNat p := by
  unfold leadingNat at h
  by_cases he : (t.takeWhile Char.isDigit).isEmpty = true
  · simp [he] at h
  · simp only [he, Bool.false_eq_true, if_false, Option.some.injEq] at h
    refine ⟨t.takeWhile Char.isDigit, t.dropWhile Char.isDigit,
      (List.takeWhile_append_dropWhile Char.isDigit t).symm, ?_,
      headNot_dropWhile _ t, h.symm⟩
    unfold digitsNE
    simp [he, all_takeWhile_self]

theorem ddChar_colon : ddChar ':' = false := by decide

theorem ddHostPort_append {h p rest : Str} (hh : h.isEmpty = false)
    (hdd : allDD h = true) (hp : digitsNE p = true)
    (hr : headNotDigit rest = true) :
    ddHostPort (h ++ ':' :: (p ++ rest)) = some (h, digitsToNat p) := by
  have hn : headNot ddChar (':' :: (p ++ rest)) = true := by
    simp [headNot, ddChar_colon]
  have h1 : (h ++ ':' :: (p ++ rest)).takeWhile ddChar = h :=
    takeWhile_all_append hdd hn
  have h2 : (h ++ ':' :: (p ++ rest)).dropWhile ddChar = ':' :: (p ++ rest) :=
    dropWhile_all_append hdd hn
  unfold ddHostPort
  rw [h1, h2]
  simp [hh, leadingNat_of_append hp hr]

theorem ddHostPort_some_decomp {rs hst : Str} {n : Nat}
    (hm : ddHostPort rs = some (hst, n)) :
    ∃ p r2, rs = hst ++ ':' :: (p ++ r2) ∧ hst.isEmpty = false ∧
      allDD hst = true ∧ digitsNE p = true ∧ headNotDigit r2 = true ∧
      n = digitsToNat p := by
  unfold ddHostPort at hm
  by_cases he : (rs.takeWhile ddChar).isEmpty = true
  · simp [he] at hm
  · simp only [he, Bool.false_eq_true, if_false] at hm
    split at hm
    · rename_i t heq
      simp only [Option.map_eq_some'] at hm
      obtain ⟨m, hlead, heq2⟩ := hm
      have hhst : rs.takeWhile ddChar = hst := congrArg Prod.fst heq2
      have hmn : m = n := congrArg Prod.snd heq2
      subst hmn
      obtain ⟨p, r2, ht, hp, hr2, hn⟩ := leadingNat_some_decomp hlead
      refine ⟨p, r2, ?_, ?_, ?_, hp, hr2, hn⟩
      · conv_lhs => rw [← List.takeWhile_append_dropWhile ddChar rs]
        rw [hhst, heq, ht]
      · rw [← hhst]
        simpa using he
      · rw [← hhst]
        exact all_takeWhile_self _ rs
    · cases hm


theorem atAtColon_iff {s : Str} : atAtColon s = true ↔ ∃ t, s = '@' :: ':' :: t := by
  cases s with
  | nil => simp [atAtColon]
  | cons a s' =>
    cases s' with
    | nil => simp [atAtColon]
    | cons b t =>
      simp only [atAtColon, Bool.and_eq_true, beq_iff_eq, List.cons.injEq]
      constructor
      · rintro ⟨rfl, rfl⟩; exact ⟨t, rfl, rfl, rfl⟩
      · rintro ⟨t', h1, h2, rfl⟩; exact ⟨h1, h2⟩

theorem atAtColon_cons_false {c : Char} (hc : (c == '@') = false) (l : Str) :
    atAtColon (c :: l) = false := by
  cases l with
  | nil => rfl
  | cons b t => simp [atAtColon, hc]

theorem ddChar_ne_at {c : Char} (h : ddChar c = true) : (c == '@') = false := by
  by_cases hc : c = '@'
  · subst hc; exact absurd h (by decide)
  · simp [hc]

-- ============================================================
-- Branch-evaluation equations for parse_input (all definitional:
-- the prefix tests of the if-chain reduce on a literal prefix)
-- ============================================================

theorem parse_input_dev (fs : Str → Bool) (rest : Str) :
    parse_input fs (devP ++ rest) = .ok (.v4l2 (devP ++ rest)) := rfl

theorem parse_input_csi (fs : Str → Bool) (rest : Str) :
    parse_input fs (csiP ++ rest) = .ok (.csi (takeUntilCsi rest)) := rfl

theorem parse_input_udp_eval (fs : Str → Bool) (t : Str) :
    parse_input fs (udpP ++ t) =
      (match rsplitColon t with
       | some (h, p) => (pyInt p).map fun n => .udp (hostOpt h) n
       | none => (pyInt t).map fun n => .udp none n) := rfl

theorem parse_input_rtp_eval (fs : Str → Bool) (t : Str) :
    parse_input fs (rtpP ++ t) =
      (match rtpMatchOf (rtpP ++ t) with
       | some port => .ok (.rtp port)
       | none => fileOrFail fs (rtpP ++ t)) := rfl

theorem rtpMatchOf_eval (t : Str) :
    rtpMatchOf (rtpP ++ t) =
      (if atAtColon t then leadingNat (t.drop 2)
       else (ddHostPort t).map (·.2)) := rfl

theorem parse_input_mc_eval (fs : Str → Bool) (t : Str) :
    parse_input fs (mcP ++ t) =
      (match ddHostPort t with
       | some (h, p) => .ok (.multicast h p)
       | none => fileOrFail fs (mcP ++ t)) := rfl

theorem parse_input_rtsp (fs : Str → Bool) (rest : Str) :
    parse_input fs (rtspP ++ rest) = .ok (.rtsp (rtspP ++ rest)) := rfl

-- ============================================================
-- Soundness: every Assigns-derivable pair is computed by parse_input
-- ============================================================

theorem parse_of_assigns {fs : Str → Bool} {u : Str} {s : InputSpec}
    (h : Assigns fs u s) : parse_input fs u = .ok s := by
  cases h with
  | dev rest => rfl
  | csi rest => rfl
  | udpColon h p n hp hn =>
    rw [show udpP ++ h ++ ':' :: p = udpP ++ (h ++ ':' :: p) from rfl,
      parse_input_udp_eval fs (h ++ ':' :: p), rsplit_append hp h]
    show Except.map (fun n => InputSpec.udp (hostOpt h) n) (pyInt p) = _
    rw [hn]
    rfl
  | udpPlain s' n hs hn =>
    rw [parse_input_udp_eval fs s', rsplit_none_of_colonFree hs, hn]
    rfl
  | rtpAt p rest hp hr =>
    rw [parse_input_rtp_eval fs ('@' :: ':' :: (p ++ rest))]
    rw [show rtpMatchOf (rtpP ++ '@' :: ':' :: (p ++ rest)) =
      leadingNat (p ++ rest) from rfl]
    rw [leadingNat_of_append hp hr]
  | rtpHost h p rest hh hdd hp hr =>
    rw [show rtpP ++ h ++ ':' :: (p ++ rest) =
      rtpP ++ (h ++ ':' :: (p ++ rest)) from rfl]
    rw [parse_input_rtp_eval fs (h ++ ':' :: (p ++ rest))]
    rw [rtpMatchOf_eval (h ++ ':' :: (p ++ rest))]
    cases h with
    | nil => exact absurd rfl hh
    | cons c h2 =>
      have hc : ddChar c = true := by
        have hall := hdd
        simp only [allDD, List.all_cons, Bool.and_eq_true] at hall
        exact hall.1
      rw [show (c :: h2) ++ ':' :: (p ++ rest) =
        c :: (h2 ++ ':' :: (p ++ rest)) from rfl]
      rw [atAtColon_cons_false (ddChar_ne_at hc)]
      rw [show c :: (h2 ++ ':' :: (p ++ rest)) =
        (c :: h2) ++ ':' :: (p ++ rest) from rfl]
      rw [ddHostPort_append (by simp) hdd hp hr]
      rfl
  | mc h p rest hh hdd hp hr =>
    rw [show mcP ++ h ++ ':' :: (p ++ rest) =
      mcP ++ (h ++ ':' :: (p ++ rest)) from rfl]
    rw [parse_input_mc_eval fs (h ++ ':' :: (p ++ rest))]
    rw [ddHostPort_append (by simpa using hh) hdd hp hr]
  | rtsp rest => rfl
  | file u h1 h2 h3 h4 h5 h6 hf =>
    unfold parse_input
    simp only [h1, h2, h3, h4, Bool.false_eq_true, if_false]
    by_cases hrtp : startsL rtpP u = true
    · simp [hrtp, h5 hrtp, fileOrFail, hf]
    · by_cases hmc : startsL mcP u = true
      · simp [hrtp, hmc, h6 hmc, fileOrFail, hf]
      · simp [hrtp, hmc, fileOrFail, hf]

-- ============================================================
-- Completeness: every parse_input success is Assigns-derivable
-- ============================================================

theorem assigns_of_parse {fs : Str → Bool} {u : Str} {s : InputSpec}
    (h : parse_input fs u = .ok s) : Assigns fs u s := by
  by_cases hdev : startsL devP u = true
  · obtain ⟨rest, rfl⟩ := startsL_eq_true_iff.mp hdev
    rw [parse_input_dev] at h
    injection h with h
    subst h
    exact Assigns.dev rest
  by_cases hcsi : startsL csiP u = true
  · obtain ⟨rest, rfl⟩ := startsL_eq_true_iff.mp hcsi
    rw [parse_input_csi] at h
    injection h with h
    subst h
    exact Assigns.csi rest
  by_cases hudp : startsL udpP u = true
  · obtain ⟨t, rfl⟩ := startsL_eq_true_iff.mp hudp
    rw [parse_input_udp_eval] at h
    cases hr : rsplitColon t with
    | some pr =>
      obtain ⟨a, b⟩ := pr
      simp only [hr] at h
      cases hpi : pyInt b with
      | error e => simp [hpi, Except.map] at h
      | ok n =>
        rw [hpi] at h
        simp only [Except.map] at h
        injection h with h
        subst h
        obtain ⟨ht, hcf⟩ := rsplit_some_decomp hr
        subst ht
        exact Assigns.udpColon a b n hcf hpi
    | none =>
      simp only [hr] at h
      cases hpi : pyInt t with
      | error e => simp [hpi, Except.map] at h
      | ok n =>
        rw [hpi] at h
        simp only [Except.map] at h
        injection h with h
        subst h
        exact Assigns.udpPlain t n (colonFree_of_rsplit_none hr) hpi
  by_cases hrtp : startsL rtpP u = true
  · obtain ⟨t, rfl⟩ := startsL_eq_true_iff.mp hrtp
    rw [parse_input_rtp_eval] at h
    cases hm : rtpMatchOf (rtpP ++ t) with
    | some port =>
      simp only [hm] at h
      injection h with h
      subst h
      rw [rtpMatchOf_eval] at hm
      by_cases hat : atAtColon t = true
      · rw [if_pos hat] at hm
        obtain ⟨t2, rfl⟩ := atAtColon_iff.mp hat
        have hm2 : leadingNat t2 = some port := hm
        obtain ⟨p, r2, heq, hp, hr2, hn⟩ := leadingNat_some_decomp hm2
        subst heq
        subst hn
        exact Assigns.rtpAt p r2 hp hr2
      · rw [if_neg hat] at hm
        cases hdd : ddHostPort t with
        | none => rw [hdd] at hm; cases hm
        | some pr =>
          obtain ⟨hst, n⟩ := pr
          rw [hdd] at hm
          simp only [Option.map_some'] at hm
          injection hm with hm
          subst hm
          obtain ⟨p, r2, ht, hne, hdd2, hp, hr2, hn⟩ := ddHostPort_some_decomp hdd
          subst ht
          subst hn
          exact Assigns.rtpHost hst p r2 (by simp [hne]) hdd2 hp hr2
    | none =>
      simp only [hm] at h
      unfold fileOrFail at h
      by_cases hfs : fs (rtpP ++ t) = true
      · simp only [hfs, if_true] at h
        injection h with h
        subst h
        exact Assigns.file _ rfl rfl rfl rfl (fun _ => hm)
          (fun hx => absurd hx (by exact Bool.false_ne_true)) hfs
      · simp [hfs] at h
  by_cases hmc : startsL mcP u = true
  · obtain ⟨t, rfl⟩ := startsL_eq_true_iff.mp hmc
    rw [parse_input_mc_eval] at h
    cases hdd : ddHostPort t with
    | some pr =>
      obtain ⟨hst, n⟩ := pr
      simp only [hdd] at h
      injection h with h
      subst h
      obtain ⟨p, r2, ht, hne, hdd2, hp, hr2, hn⟩ := ddHostPort_some_decomp hdd
      subst ht
      subst hn
      exact Assigns.mc hst p r2 (by simp [hne]) hdd2 hp hr2
    | none =>
      simp only [hdd] at h
      unfold fileOrFail at h
      by_cases hfs : fs (mcP ++ t) = true
      · simp only [hfs, if_true] at h
        injection h with h
        subst h
        exact Assigns.file _ rfl rfl rfl rfl
          (fun hx => absurd hx (by exact Bool.false_ne_true))
          (fun _ => hdd) hfs
      · simp [hfs] at h
  by_cases hrtsp : startsL rtspP u = true
  · obtain ⟨rest, rfl⟩ := startsL_eq_true_iff.mp hrtsp
    rw [parse_input_rtsp] at h
    injection h with h
    subst h
    exact Assigns.rtsp rest
  have hfof : parse_input fs u = fileOrFail fs u := by
    unfold parse_input
    simp [hdev, hcsi, hudp, hrtp, hmc, hrtsp]
  rw [hfof] at h
  unfold fileOrFail at h
  by_cases hfs : fs u = true
  · simp only [hfs, if_true] at h
    injection h with h
    subst h
    exact Assigns.file u (by simpa using hdev) (by simpa using hcsi)
      (by simpa using hudp) (by simpa using hrtsp)
      (fun hx => absurd hx hrtp) (fun hx => absurd hx hmc) hfs
  · simp [hfs] at h

-- ============================================================
-- Error classification: every parse_input failure is a ValueError
-- ============================================================

theorem pyInt_error_val {s : Str} {e : PyErr} (h : pyInt s = .error e) :
    e = .valueError := by
  unfold pyInt at h
  split at h
  · injection h with h; exact h.symm
  · split_ifs at h <;> simp_all

theorem parse_input_error_val {fs : Str → Bool} {u : Str} {e : PyErr}
    (h : parse_input fs u = .error e) : e = .valueError := by
  by_cases hdev : startsL devP u = true
  · obtain ⟨rest, rfl⟩ := startsL_eq_true_iff.mp hdev
    rw [parse_input_dev] at h
    cases h
  by_cases hcsi : startsL csiP u = true
  · obtain ⟨rest, rfl⟩ := startsL_eq_true_iff.mp hcsi
    rw [parse_input_csi] at h
    cases h
  by_cases hudp : startsL udpP u = true
  · obtain ⟨t, rfl⟩ := startsL_eq_true_iff.mp hudp
    rw [parse_input_udp_eval] at h
    cases hr : rsplitColon t with
    | some pr =>
      obtain ⟨a, b⟩ := pr
      simp only [hr] at h
      cases hpi : pyInt b with
      | error e2 =>
        rw [hpi] at h
        simp only [Except.map] at h
        injection h with h
        exact h ▸ pyInt_error_val hpi
      | ok n =>
        rw [hpi] at h
        simp [Except.map] at h
    | none =>
      simp only [hr] at h
      cases hpi : pyInt t with
      | error e2 =>
        rw [hpi] at h
        simp only [Except.map] at h
        injection h with h
        exact h ▸ pyInt_error_val hpi
      | ok n =>
        rw [hpi] at h
        simp [Except.map] at h
  by_cases hrtp : startsL rtpP u = true
  · obtain ⟨t, rfl⟩ := startsL_eq_true_iff.mp hrtp
    rw [parse_input_rtp_eval] at h
    cases hm : rtpMatchOf (rtpP ++ t) with
    | some port => simp only [hm] at h; cases h
    | none =>
      simp only [hm] at h
      unfold fileOrFail at h
      by_cases hfs : fs (rtpP ++ t) = true
      · simp only [hfs, if_true] at h; cases h
      · simp only [hfs, Bool.false_eq_true, if_false] at h
        injection h with h
        exact h.symm
  by_cases hmc : startsL mcP u = true
  · obtain ⟨t, rfl⟩ := startsL_eq_true_iff.mp hmc
    rw [parse_input_mc_eval] at h
    cases hdd : ddHostPort t with
    | some pr => obtain ⟨a, b⟩ := pr; simp only [hdd] at h; cases h
    | none =>
      simp only [hdd] at h
      unfold fileOrFail at h
      by_cases hfs : fs (mcP ++ t) = true
      · simp only [hfs, if_true] at h; cases h
      · simp only [hfs, Bool.false_eq_true, if_false] at h
        injection h with h
        exact h.symm
  by_cases hrtsp : startsL rtspP u = true
  · obtain ⟨rest, rfl⟩ := startsL_eq_true_iff.mp hrtsp
    rw [parse_input_rtsp] at h
    cases h
  have hfof : parse_input fs u = fileOrFail fs u := by
    unfold parse_input
    simp [hdev, hcsi, hudp, hrtp, hmc, hrtsp]
  rw [hfof] at h
  unfold fileOrFail at h
  by_cases hfs : fs u = true
  · simp only [hfs, if_true] at h; cases h
  · simp only [hfs, Bool.false_eq_true, if_false] at h
    injection h with h
    exact h.symm

-- ============================================================
-- Claim C1
-- ============================================================

/-- C1 (amended): `parse_input` decides exactly the `Assigns` relation —
each URI form of §4.2 maps to its grammar-assigned variant, in the stated
priority order, and every other string fails with `ValueError`; where the
implementation is laxer than the literal grammar, `Assigns` records it
(rtp/mc forms allow trailing text after the port, the csi index is cut at
the next `csi://`, udp ports are signed unbounded integers and an
unparsable udp port never reaches the existing-file fallback). -/
theorem c1_parse_input_amended (fs : Str → Bool) (u : Str) :
    (∀ s, parse_input fs u = .ok s ↔ Assigns fs u s) ∧
    (parse_input fs u = .error .valueError ↔ ∀ s, ¬ Assigns fs u s) := by
  constructor
  · exact fun s => ⟨assigns_of_parse, parse_of_assigns⟩
  · constructor
    · intro he s ha
      rw [parse_of_assigns ha] at he
      cases he
    · intro hno
      cases hres : parse_input fs u with
      | ok s => exact absurd (assigns_of_parse hres) (hno s)
      | error e => rw [parse_input_error_val hres]

/-- Witness for C1: the spec's own example `udp://:5000` is accepted as
`Udp{host=None, port=5000}`. -/
theorem c1_parse_input_amended_witness :
    Assigns (fun _ => false) "udp://:5000".toList (.udp none 5000) :=
  ((c1_parse_input_amended (fun _ => false) "udp://:5000".toList).1 _).mp rfl

/-- C1 counterexample: `rtp://@:5000x` is outside the §4.2 input grammar
(trailing `x` after the port), yet `parse_input` accepts it as `Rtp 5000`
because `re.match` only anchors at the start — refuting "for every string
outside the grammar, parse_input raises InvalidUri". -/
theorem c1_counterexample :
    grammar42 (fun _ => false) "rtp://@:5000x".toList = false ∧
    parse_input (fun _ => false) "rtp://@:5000x".toList = .ok (.rtp 5000) :=
  ⟨rfl, rfl⟩

-- ============================================================
-- Claim C2
-- ============================================================

/-- C2: the encoder decision table is total on
`{h264,mjpeg} × {rpi,jetson,generic} × Bool` — mjpeg always selects the
software JPEG encoder; h264 with hardware requested selects the Jetson
stage on jetson and the V4L2 stage on rpi; every other h264 combination
(generic platform, or hardware not requested) selects the low-latency
software x264 stage; any other codec raises `ValueError`
("Unsupported codec"). -/
theorem c2_get_encoder_table :
    (∀ p ∈ ["rpi", "jetson", "generic"], ∀ hw : Bool,
        get_encoder p hw "mjpeg" = .ok jpegencStr) ∧
    get_encoder "jetson" true "h264" = .ok nvh264Str ∧
    get_encoder "rpi" true "h264" = .ok v4l2h264Str ∧
    (∀ p ∈ ["rpi", "jetson", "generic"], ∀ hw : Bool,
        hw = false ∨ p = "generic" → get_encoder p hw "h264" = .ok x264Str) ∧
    (∀ (p : String) (hw : Bool) (c : String), c ≠ "h264" → c ≠ "mjpeg" →
        get_encoder p hw c = .error .valueError) := by
  refine ⟨fun p _ hw => rfl, rfl, rfl, fun p hp hw hcase => ?_, fun p hw c h1 h2 => ?_⟩
  · rcases hcase with rfl | rfl
    · rfl
    · cases hw <;> rfl
  · simp [get_encoder, h1, h2]

/-- Witness for C2: the generic-platform hardware-requested fallback and
the unknown-codec failure, both at concrete inputs. -/
theorem c2_get_encoder_table_witness :
    get_encoder "generic" true "h264" = .ok x264Str ∧
    get_encoder "rpi" false "av1" = .error .valueError :=
  ⟨c2_get_encoder_table.2.2.2.1 "generic" (by simp) true (Or.inr rfl),
   c2_get_encoder_table.2.2.2.2 "rpi" false "av1" (by decide) (by decide)⟩

-- ============================================================
-- Claim C9
-- ============================================================

/-- C9: `parse_resolution` maps the presets 720/1080/480 to their WxH
forms, passes any string containing `x` through unchanged, and maps the
empty string and every unknown preset to the empty result (no
constraint); being a total function, it never raises. -/
theorem c9_parse_resolution :
    parse_resolution "720".toList = "1280x720".toList ∧
    parse_resolution "1080".toList = "1920x1080".toList ∧
    parse_resolution "480".toList = "640x480".toList ∧
    parse_resolution [] = [] ∧
    (∀ r : Str, r.contains 'x' = true → parse_resolution r = r) ∧
    (∀ r : Str, r.isEmpty = false → r.contains 'x' = false →
      r ≠ "1080".toList → r ≠ "720".toList → r ≠ "480".toList →
      parse_resolution r = []) := by
  refine ⟨rfl, rfl, rfl, rfl, fun r hx => ?_, fun r h1 h2 h3 h4 h5 => ?_⟩
  · have hne : r.isEmpty = false := by
      cases r with
      | nil => cases hx
      | cons a t => rfl
    have hmem : 'x' ∈ r := by simpa using hx
    simp [parse_resolution, hne, hmem]
  · unfold parse_resolution
    rw [if_neg (by simp [h1]), if_neg (by simpa using h2), if_neg h3, if_neg h4,
      if_neg h5]

/-- Witness for C9: the spec's examples — `999` resolves to "no
constraint" rather than failing, `640x480` passes through. -/
theorem c9_parse_resolution_witness :
    parse_resolution "999".toList = [] ∧
    parse_resolution "640x480".toList = "640x480".toList :=
  ⟨c9_parse_resolution.2.2.2.2.2 "999".toList rfl rfl (by decide) (by decide)
    (by decide),
   c9_parse_resolution.2.2.2.2.1 "640x480".toList rfl⟩

-- ============================================================
-- Claim C3
-- ============================================================

/-- C3 (the code at the failing input): with output codec mjpeg,
videoViewerPi2.py's build_pipeline composes the JPEG encoder `jpegenc`
directly with the H.264 payloader `rtph264pay` for both network
destinations — the rtp and multicast sink branches hardcode
`rtph264pay`, mixing codec families exactly as the spec forbids. -/
theorem c3_mjpeg_network_sink_mixes_families :
    build_pipeline
      { input_uri := [], output_uri := [], output_codec := "mjpeg" }
      (.v4l2 "/dev/video0".toList) (.rtp "192.168.1.50".toList 5000) =
      .ok (some ("v4l2src device=/dev/video0 ! video/x-raw ! videoconvert" ++
        " ! jpegenc ! rtph264pay config-interval=1 pt=96" ++
        " ! udpsink host=192.168.1.50 port=5000").toList) ∧
    build_pipeline
      { input_uri := [], output_uri := [], output_codec := "mjpeg" }
      (.v4l2 "/dev/video0".toList) (.multicast "239.1.1.1".toList 5000) =
      .ok (some ("v4l2src device=/dev/video0 ! video/x-raw ! videoconvert" ++
        " ! jpegenc ! rtph264pay pt=96 ! udpsink host=239.1.1.1 port=5000" ++
        " auto-multicast=true ttl=1").toList) :=
  ⟨rfl, rfl⟩

-- ============================================================
-- Claim C10
-- ============================================================

theorem v4l2Caps_ok {res fps : Str}
    (hres : res = [] ∨ ∃ w h, splitOnChar 'x' res = [w, h]) :
    ∃ caps, v4l2Caps res fps = .ok caps := by
  rcases hres with rfl | ⟨w, h, hsp⟩
  · exact ⟨_, rfl⟩
  · have hne : res.isEmpty = false := by
      cases res with
      | nil => cases hsp
      | cons a t => rfl
    unfold v4l2Caps
    rw [hne]
    simp only [Bool.false_eq_true, if_false, hsp]
    exact ⟨_, rfl⟩

/-- C10: in video-viewerPi.py, an `http` output combined with any input
variant other than a `/dev/video*` device (csi, file, udp, rtp,
multicast) makes `build_pipeline` raise `KeyError('device')` — not
`ValueError`/InvalidUri — because the HTTP topology unconditionally reads
`inp['device']`.  (The rtsp variant is excluded: the legacy parser never
produces it, and the input section would raise `ValueError` first.)  The
csi case needs the resolution either empty or a well-formed `WxH` so the
input section itself does not raise beforehand. -/
theorem c10_http_mode_keyerror (inp : InputSpec) (plat in_c out_c : String)
    (hw : Bool) (res fps : Str)
    (hnotdev : ∀ d, inp ≠ .v4l2 d) (hnotrtsp : ∀ r, inp ≠ .rtsp r)
    (hres : res = [] ∨ ∃ w h, splitOnChar 'x' res = [w, h]) :
    V1.build_pipeline plat inp .http in_c out_c hw res fps =
      .error (.keyError "device") := by
  cases inp with
  | v4l2 d => exact absurd rfl (hnotdev d)
  | rtsp r => exact absurd rfl (hnotrtsp r)
  | csi idx =>
    obtain ⟨caps, hv⟩ := @v4l2Caps_ok res fps hres
    unfold V1.build_pipeline V1.srcFor
    rw [hv]
    rfl
  | file path => rfl
  | udp host port => rfl
  | rtp port => rfl
  | multicast host port => rfl

/-- Witness for C10: a file input with HTTP output fails with
`KeyError('device')`. -/
theorem c10_http_mode_keyerror_witness :
    V1.build_pipeline "generic" (.file "video.mp4".toList) .http "h264"
      "h264" false [] [] = .error (.keyError "device") :=
  c10_http_mode_keyerror (.file "video.mp4".toList) "generic" "h264" "h264"
    false [] [] (fun _ h => by cases h) (fun _ h => by cases h) (Or.inl rfl)

-- ============================================================
-- Capture-loop lemmas
-- ============================================================

theorem stepCap_sample_frame {platform : String} {st : CapState}
    {d : List Nat} (hok : sampleOk platform d) :
    (stepCap platform st (.sample d)).frame = some (mkStored platform d) := by
  unfold stepCap mkStored
  by_cases hj : platform = "jetson"
  · simp [hj]
  · rcases hok with hj2 | hlen
    · exact absurd hj2 hj
    · simp [hj, reshapeBGR, hlen]

theorem stepCap_running (platform : String) (st : CapState) (e : CapEvent)
    (hne : e ≠ .stop) : (stepCap platform st e).running = st.running := by
  cases e with
  | stop => exact absurd rfl hne
  | sample d =>
    unfold stepCap
    by_cases hj : platform = "jetson"
    · simp [hj]
    · simp only [hj, Bool.false_eq_true, if_false]
      cases reshapeBGR d <;> rfl
  | noSample => rfl
  | noBuffer => rfl
  | mapFail => rfl
  | exn => rfl

-- ============================================================
-- Claim C5
-- ============================================================

/-- C5: the FrameBuffer slot is latest-wins — a successfully converted
sample write replaces whatever the slot held, unconditionally, and after
a sequence of N processable samples (no concurrent reader) `get_frame`
returns exactly the Nth sample's stored array, never an earlier one (the
model stores whole owned arrays, so no mixture of two samples is
representable). -/
theorem c5_framebuffer_latest_wins :
    (∀ (platform : String) (st : CapState) (d : List Nat),
        sampleOk platform d →
        get_frame (stepCap platform st (.sample d)) =
          some (mkStored platform d)) ∧
    (∀ (platform : String) (ds : List (List Nat)) (st : CapState),
        st.running = true → (∀ d ∈ ds, sampleOk platform d) →
        ∀ hne : ds ≠ [],
        get_frame ((capLoop platform (ds.map .sample) st).1) =
          some (mkStored platform (ds.getLast hne))) := by
  constructor
  · exact fun platform st d hok => stepCap_sample_frame hok
  · intro platform ds
    induction ds with
    | nil => intro st _ _ hne; exact absurd rfl hne
    | cons d ds ih =>
      intro st hrun hall hne
      cases ds with
      | nil =>
        simp only [List.map, capLoop, hrun, if_true]
        exact stepCap_sample_frame (hall d (by simp))
      | cons d2 ds2 =>
        have hrun2 : (stepCap platform st (.sample d)).running = true := by
          rw [stepCap_running platform st _ (by simp), hrun]
        have hall2 : ∀ x ∈ d2 :: ds2, sampleOk platform x := by
          intro x hx
          exact hall x (List.mem_cons_of_mem d hx)
        have hlast : (d :: d2 :: ds2).getLast hne =
            (d2 :: ds2).getLast (by simp) :=
          List.getLast_cons (by simp)
        rw [hlast]
        simp only [List.map, capLoop, hrun, if_true]
        exact ih (stepCap platform st (.sample d)) hrun2 hall2 (by simp)

/-- Witness for C5: two Jetson samples in sequence leave the second one
in the slot. -/
theorem c5_framebuffer_latest_wins_witness :
    get_frame ((capLoop "jetson"
        ([[1], [2, 3]].map CapEvent.sample) { running := true }).1) =
      some ⟨[2], [2, 3]⟩ := by
  have h := c5_framebuffer_latest_wins.2 "jetson" [[1], [2, 3]]
    { running := true } rfl
    (by intro d _; exact Or.inl rfl) (by simp)
  simpa [mkStored] using h

-- ============================================================
-- Claim C6
-- ============================================================

/-- C6 counterexample: with the session's resolution configured as
640x480, AppSink mode still captures at the hardcoded 1280x720 — the
appsink pipeline builder never consults the configured resolution (its
caps read `width=1280,height=720`), and a stored frame on a non-Jetson
platform has shape (720, 1280, 3), not (480, 640, 3) as the claim's
"configured width and height" would require. -/
theorem c6_counterexample :
    build_appsink_pipeline "rpi" (.v4l2 "/dev/video0".toList) =
      .ok ("v4l2src device=/dev/video0 ! " ++
        "video/x-raw,width=1280,height=720,framerate=30/1 ! " ++
        "videoconvert ! video/x-raw,format=BGR ! " ++
        "appsink name=appsink max-buffers=1 drop=true emit-signals=true" ++
        " sync=false").toList ∧
    (stepCap "rpi" { running := true }
        (.sample (List.replicate (720 * 1280 * 3) 0))).frame =
      some ⟨[720, 1280, 3], List.replicate (720 * 1280 * 3) 0⟩ ∧
    ([720, 1280, 3] : List Nat) ≠ [480, 640, 3] := by
  refine ⟨rfl, ?_, by decide⟩
  have hlen : (List.replicate (720 * 1280 * 3) (0 : Nat)).length =
      720 * 1280 * 3 := List.length_replicate _ _
  generalize hD : List.replicate (720 * 1280 * 3) (0 : Nat) = d at hlen ⊢
  have h := @stepCap_sample_frame "rpi" { running := true } d (Or.inr hlen)
  rw [h]
  unfold mkStored
  rw [if_neg (by decide : ¬(("rpi" : String) = "jetson"))]

/-- C6 (amended): the AppSink capture layout is fixed rather than taken
from the session's encoding configuration — on every non-Jetson platform
the appsink graph and the reshape hardcode 1280x720 BGR (a sample of any
other size raises inside the body and is dropped, slot unchanged), and
on Jetson the raw byte array is stored as-is, duplicated into the CUDA
slot. -/
theorem c6_appsink_layout (platform : String) (st : CapState)
    (d : List Nat) :
    (platform ≠ "jetson" → ∀ dev,
      build_appsink_pipeline platform (.v4l2 dev) = .ok (appsinkBgrStr dev)) ∧
    (platform ≠ "jetson" → d.length = 720 * 1280 * 3 →
      (stepCap platform st (.sample d)).frame = some ⟨[720, 1280, 3], d⟩) ∧
    (platform ≠ "jetson" → d.length ≠ 720 * 1280 * 3 →
      stepCap platform st (.sample d) = st) ∧
    (stepCap "jetson" st (.sample d)).frame = some ⟨[d.length], d⟩ ∧
    (stepCap "jetson" st (.sample d)).cuda_frame = some ⟨[d.length], d⟩ := by
  refine ⟨fun hj dev => ?_, fun hj hlen => ?_, fun hj hlen => ?_, rfl, rfl⟩
  · simp [build_appsink_pipeline, hj]
  · have h := @stepCap_sample_frame platform st d (Or.inr hlen)
    rwa [mkStored, if_neg hj] at h
  · simp [stepCap, hj, reshapeBGR, hlen]

/-- Witness for C6: a wrong-sized sample on a generic platform is
dropped; a Jetson sample of any size is stored raw. -/
theorem c6_appsink_layout_witness :
    stepCap "generic" { running := true } (.sample [7]) =
      { running := true } ∧
    (stepCap "jetson" { running := true } (.sample [7])).frame =
      some ⟨[1], [7]⟩ :=
  ⟨(c6_appsink_layout "generic" { running := true } [7]).2.2.1
      (by decide) (by decide),
   (c6_appsink_layout "jetson" { running := true } [7]).2.2.2.1⟩

-- ============================================================
-- Claim C8
-- ============================================================

/-- C8: no capture-loop iteration outcome other than the cooperative
flag terminates the loop — failure outcomes (no sample, missing buffer,
failed map, caught exception) leave the state untouched; no event but
`stop` touches the running flag; a trace free of `stop` is processed to
the end with the loop still live; and once the flag is cleared the loop
exits at the next check. -/
theorem c8_capture_loop_exit (platform : String) :
    (∀ st : CapState,
        stepCap platform st .noSample = st ∧
        stepCap platform st .noBuffer = st ∧
        stepCap platform st .mapFail = st ∧
        stepCap platform st .exn = st) ∧
    (∀ (st : CapState) (e : CapEvent), e ≠ .stop →
        (stepCap platform st e).running = st.running) ∧
    (∀ (evs : List CapEvent) (st : CapState), st.running = true →
        (∀ e ∈ evs, e ≠ .stop) →
        (capLoop platform evs st).2 = false ∧
        (capLoop platform evs st).1.running = true) ∧
    (∀ (st : CapState) (e : CapEvent) (evs : List CapEvent),
        st.running = true →
        capLoop platform (.stop :: e :: evs) st =
          (stepCap platform st .stop, true)) := by
  refine ⟨fun st => ⟨rfl, rfl, rfl, rfl⟩, stepCap_running platform,
    fun evs => ?_, fun st e evs hrun => ?_⟩
  · induction evs with
    | nil => intro st hrun _; exact ⟨rfl, hrun⟩
    | cons e evs ih =>
      intro st hrun hall
      have hrun2 : (stepCap platform st e).running = true := by
        rw [stepCap_running platform st e (hall e (by simp)), hrun]
      have hall2 : ∀ x ∈ evs, x ≠ CapEvent.stop :=
        fun x hx => hall x (List.mem_cons_of_mem e hx)
      simp only [capLoop, hrun, if_true]
      exact ih (stepCap platform st e) hrun2 hall2
  · have hstop : (stepCap platform st .stop).running = false := rfl
    simp [capLoop, hrun, hstop]

/-- Witness for C8: a trace of pure failures keeps the loop alive; a
cleared flag stops it. -/
theorem c8_capture_loop_exit_witness :
    (capLoop "generic" [.mapFail, .noSample, .exn] { running := true }).2 =
      false ∧
    capLoop "generic" [.stop, .noSample, .noSample] { running := true } =
      ({ running := false }, true) :=
  ⟨((c8_capture_loop_exit "generic").2.2.1 [.mapFail, .noSample, .exn]
      { running := true } rfl (by intro e he; fin_cases he <;> decide)).1,
   (c8_capture_loop_exit "generic").2.2.2 { running := true } .noSample
      [.noSample] rfl⟩

-- ============================================================
-- Claim C7
-- ============================================================

theorem start_fail_state {fs : Str → Bool} {cfg : Config}
    (hfail : (∃ e, parse_input fs cfg.input_uri = .error e) ∨
             (∃ e, parse_output cfg.output_uri = .error e))
    (st : ViewerState) : ∃ e, start fs cfg st = (some e, st) := by
  unfold start
  rcases hfail with ⟨e, he⟩ | ⟨e, he⟩
  · rw [he]
    exact ⟨e, rfl⟩
  · cases hi : parse_input fs cfg.input_uri with
    | error e2 => exact ⟨e2, rfl⟩
    | ok inp =>
      rw [he]
      exact ⟨e, rfl⟩

/-- C7: when either URI fails to parse, `start()` fails synchronously
before acquiring anything: it returns the parse error with the session
state exactly as it was — started from the freshly initialized state,
no pipeline is instantiated (both handles stay `None`) and the running
flag stays false, so there is no partial state to unwind. -/
theorem c7_start_parse_failure (fs : Str → Bool) (cfg : Config)
    (st : ViewerState)
    (hfail : (∃ e, parse_input fs cfg.input_uri = .error e) ∨
             (∃ e, parse_output cfg.output_uri = .error e)) :
    (∃ e, start fs cfg st = (some e, st)) ∧
    (start fs cfg initState).2 = initState ∧
    initState.pipeline = none ∧ initState.http_pipeline = none ∧
    initState.running = false := by
  refine ⟨start_fail_state hfail st, ?_, rfl, rfl, rfl⟩
  obtain ⟨e, he⟩ := start_fail_state hfail initState
  rw [he]

/-- Witness for C7: an unparsable input URI (no such file) leaves the
fresh session untouched. -/
theorem c7_start_parse_failure_witness :
    (start (fun _ => false)
        { input_uri := "not-a-uri".toList, output_uri := "local".toList }
        initState).2 = initState := by
  have h := c7_start_parse_failure (fun _ => false)
    { input_uri := "not-a-uri".toList, output_uri := "local".toList }
    initState (Or.inl ⟨.valueError, rfl⟩)
  exact h.2.1

-- ============================================================
-- Claim C4
-- ============================================================

theorem colonFree_of_digits {p : Str} (h : p.all Char.isDigit = true) :
    colonFree p = true := by
  induction p with
  | nil => rfl
  | cons c t ih =>
    simp only [List.all_cons, Bool.and_eq_true] at h
    have hc : ¬c = ':' := by
      intro hc
      subst hc
      exact absurd h.1 (by decide)
    simp [colonFree, hc, ih h.2]

theorem pyInt_digits {p : Str} (h : digitsNE p = true) :
    pyInt p = .ok ((digitsToNat p : Int)) := by
  obtain ⟨hne, hall⟩ := digitsNE_parts h
  cases p with
  | nil => cases hne
  | cons c t =>
    simp only [List.all_cons, Bool.and_eq_true] at hall
    have h1 : ¬c = '-' := by
      intro hc; subst hc; exact absurd hall.1 (by decide)
    have h2 : ¬c = '+' := by
      intro hc; subst hc; exact absurd hall.1 (by decide)
    simp only [pyInt]
    rw [if_neg h1, if_neg h2, if_pos h]

theorem parse_output_rtp_eval (t : Str) :
    parse_output (rtpP ++ t) =
      (match ddHostPort t with
       | some (h, p) => .ok (.rtp h p)
       | none => .error .valueError) := rfl

/-- C4 (amended): port fields are parsed as integers but never
range-checked.  A malformed port text fails with `ValueError` (the
spec's `InvalidUri`), exactly as claimed; but any digit string is
accepted with its full integer value — nothing enforces 0..65535 (and
the udp form even accepts a sign).  Stated for the udp input form
(`int()`-based) and the rtp output form (regex-based); the remaining
port-carrying forms are covered by the C1 characterization, which uses
the same unbounded `leadingNat`/`pyInt` port semantics. -/
theorem c4_ports_not_range_checked :
    (∀ (fs : Str → Bool) (p : Str), digitsNE p = true →
        parse_input fs (udpP ++ ':' :: p) =
          .ok (.udp none ((digitsToNat p : Int)))) ∧
    (∀ (fs : Str → Bool) (p : Str), colonFree p = true →
        pyInt p = .error .valueError →
        parse_input fs (udpP ++ ':' :: p) = .error .valueError) ∧
    (∀ h p rest : Str, h.isEmpty = false → allDD h = true →
        digitsNE p = true → headNotDigit rest = true →
        parse_output (rtpP ++ h ++ ':' :: (p ++ rest)) =
          .ok (.rtp h (digitsToNat p))) ∧
    (∀ t : Str, ddHostPort t = none →
        parse_output (rtpP ++ t) = .error .valueError) := by
  refine ⟨fun fs p hp => ?_, fun fs p hcf hperr => ?_,
    fun h p rest hh hdd hp hr => ?_, fun t hdd => ?_⟩
  · have hcf : colonFree p = true := colonFree_of_digits (digitsNE_parts hp).2
    rw [parse_input_udp_eval fs (':' :: p),
      show (':' :: p : Str) = [] ++ ':' :: p from rfl, rsplit_append hcf []]
    show Except.map (fun n => InputSpec.udp (hostOpt []) n) (pyInt p) = _
    rw [pyInt_digits hp]
    rfl
  · rw [parse_input_udp_eval fs (':' :: p),
      show (':' :: p : Str) = [] ++ ':' :: p from rfl, rsplit_append hcf []]
    show Except.map (fun n => InputSpec.udp (hostOpt []) n) (pyInt p) = _
    rw [hperr]
    rfl
  · rw [show rtpP ++ h ++ ':' :: (p ++ rest) =
      rtpP ++ (h ++ ':' :: (p ++ rest)) from rfl,
      parse_output_rtp_eval (h ++ ':' :: (p ++ rest)),
      ddHostPort_append hh hdd hp hr]
  · rw [parse_output_rtp_eval t, hdd]

/-- Witness for C4: an out-of-range digit port is accepted verbatim; a
non-numeric output port fails with `ValueError`. -/
theorem c4_ports_not_range_checked_witness :
    parse_input (fun _ => false) "udp://:99999".toList =
      .ok (.udp none 99999) ∧
    parse_output "rtp://1.2.3.4:nope".toList = .error .valueError :=
  ⟨c4_ports_not_range_checked.1 (fun _ => false) "99999".toList rfl,
   c4_ports_not_range_checked.2.2.2 "1.2.3.4:nope".toList rfl⟩

/-- C4 counterexample: `udp://:70000` carries a port outside 0..65535,
yet `parse_input` accepts it (as `Udp{host=None, port=70000}`) instead
of failing with `InvalidUri` — there is no range check. -/
theorem c4_counterexample :
    parse_input (fun _ => false) "udp://:70000".toList =
      .ok (.udp none 70000) ∧ 65535 < 70000 :=
  ⟨rfl, by norm_num⟩

end VideoViewer
